import Mathlib

/-!
Shallow embedding of the view/aggregation engine of `src/AggregatedStats.cpp`
(arcdps_healing_stats).  Machine integers (`uint64_t`, `uint32_t`,
`uintptr_t`, `uint16_t`) are modelled as `Nat`; the healing/tick counters
accumulated by the engine stay far below `2^64` for any feasible combat
encounter, so unbounded naturals are a faithful model of the additions the
code performs.  `std::map` is modelled as an association list (iterated in
list order); `std::string` as `String`; the `float` returned by
`GetCombatTime` as an exact rational.  The memoization caches of the C++
class are pure-function identities here since the snapshot is immutable.
-/

/-- Modelled from the spec: `HealedAgent` (the snapshot's agent-map value,
declared in the header `AggregatedStats.h`, which is not under `src/`):
display name, subgroup (0 = unassigned), minion flag. -/
structure HealedAgent where
  Name : String
  Subgroup : Nat
  IsMinion : Bool
deriving DecidableEq, Repr

/-- Modelled from the spec: per-agent healing record `{totalHealing, ticks}`
(header not under `src/`). -/
structure AgentStats where
  TotalHealing : Nat
  Ticks : Nat
deriving DecidableEq, Repr

/-- Modelled from the spec: one skill's record: name plus the per-agent
healing map (header not under `src/`). -/
structure HealingSkill where
  Name : String
  AgentsHealing : List (Nat × AgentStats)
deriving DecidableEq, Repr

/-- Modelled from the spec: the immutable snapshot `HealingStats`
(header not under `src/`): agent map, skill map, observer subgroup, and the
four millisecond timestamps (0 = not yet occurred). -/
structure HealingStats where
  Agents : List (Nat × HealedAgent)
  SkillsHealing : List (Nat × HealingSkill)
  SubGroup : Nat
  EnteredCombatTime : Nat
  ExitedCombatTime : Nat
  LastHealEvent : Nat
  LastDamageEvent : Nat
deriving DecidableEq, Repr

/-- Modelled from the spec: `SortOrder` enumeration (header not under
`src/`); the four orders dispatched on in `AggregatedStats::Sort`. -/
inductive SortOrder where
  | AscendingAlphabetical
  | DescendingAlphabetical
  | AscendingSize
  | DescendingSize
deriving DecidableEq, Repr

/-- Modelled from the spec: `DataSource` enumeration (header not under
`src/`); the cases dispatched on in `GetStats`/`GetDetails`. -/
inductive DataSource where
  | Agents
  | Skills
  | Totals
deriving DecidableEq, Repr

/-- Modelled from the spec: `CombatEndCondition` enumeration (header not
under `src/`).  `GetCombatTime` branches only on `CombatExit` and
`LastHealEvent`; every other member takes the fallback branch, represented
here by `LastCombatEvent`. -/
inductive CombatEndCondition where
  | CombatExit
  | LastHealEvent
  | LastCombatEvent
deriving DecidableEq, Repr

/-- Modelled from the spec: `GroupFilter` enumeration (header not under
`src/`); the four presets of `GetGroupFilterTotals`. -/
inductive GroupFilter where
  | Group
  | Squad
  | AllExcludingMinions
  | All
deriving DecidableEq, Repr

/-- Modelled from the spec: `HealWindowOptions` — the five exclusion
switches plus the selector choices read by the engine (header not under
`src/`).  Defaults correspond to the default-constructed `fakeOptions`
object in `GetGroupFilterTotals`, whose selector fields are never read. -/
structure HealWindowOptions where
  ExcludeGroup : Bool := false
  ExcludeOffGroup : Bool := false
  ExcludeOffSquad : Bool := false
  ExcludeMinions : Bool := false
  ExcludeUnmapped : Bool := false
  SortOrderChoice : SortOrder := SortOrder.AscendingAlphabetical
  DataSourceChoice : DataSource := DataSource.Agents
  CombatEndConditionChoice : CombatEndCondition := CombatEndCondition.CombatExit
deriving DecidableEq, Repr

/-- `AggregatedStatsEntry` (constructor at `AggregatedStats.cpp:16`). -/
structure AggregatedStatsEntry where
  Id : Nat
  Name : String
  Healing : Nat
  Hits : Nat
  Casts : Option Nat
deriving DecidableEq, Repr

/-- Modelled from the spec: `AggregatedVector` — entry list plus the running
maximum `HighestHealing` (header not under `src/`; its `Add` member is at
`AggregatedStats.cpp:38`). -/
structure AggregatedVector where
  Entries : List AggregatedStatsEntry := []
  HighestHealing : Nat := 0
deriving DecidableEq, Repr

/-- `AggregatedVector::Add` (`AggregatedStats.cpp:38-42`): append an entry
and update the running maximum. -/
def AggregatedVector.Add (v : AggregatedVector) (pId : Nat) (pName : String)
    (pHealing pHits : Nat) (pCasts : Option Nat) : AggregatedVector :=
  { Entries := v.Entries ++ [⟨pId, pName, pHealing, pHits, pCasts⟩],
    HighestHealing := max v.HighestHealing pHealing }

/-- Modelled from the spec: the fixed identifier of the synthetic
"Healing by Damage Dealt" bucket, distinct from all real skill ids
(declared in the header, which is not under `src/`). -/
def IndirectHealingSkillId : Nat := 4294967295

/-- `GROUP_FILTER_STRING` (`AggregatedStats.cpp:13`). -/
def GROUP_FILTER_STRING : GroupFilter → String
  | GroupFilter.Group => "Group"
  | GroupFilter.Squad => "Squad"
  | GroupFilter.AllExcludingMinions => "All (Excluding Summons)"
  | GroupFilter.All => "All (Including Summons)"

/-- The `AggregatedStats` engine state: the moved-in snapshot, the options,
the debug flag (`AggregatedStats.cpp:25-36`), plus the external
skill-classification service `SkillTable::GlobalState.IsSkillIndirectHealing`
(out of scope, taken as an oracle parameter). -/
structure AggregatedStats where
  mySourceData : HealingStats
  myOptions : HealWindowOptions
  myDebugMode : Bool
  IsSkillIndirectHealing : Nat → String → Bool

/-- `AggregatedStats::FilterInternal` (`AggregatedStats.cpp:520-555`):
the iterator argument is modelled as the already-looked-up
`Option HealedAgent`. -/
def AggregatedStats.FilterInternal (s : AggregatedStats)
    (pAgent : Option HealedAgent) (pFilter : HealWindowOptions) : Bool :=
  match pAgent with
  | none => if pFilter.ExcludeUnmapped then true else false
  | some a =>
    if a.IsMinion = true ∧ pFilter.ExcludeMinions = true then true
    else if a.Subgroup = 0 ∧ s.mySourceData.SubGroup ≠ 0 ∧ pFilter.ExcludeOffSquad = true then true
    else if a.Subgroup ≠ 0 ∧ s.mySourceData.SubGroup ≠ a.Subgroup ∧ pFilter.ExcludeOffGroup = true then true
    else if a.Subgroup = s.mySourceData.SubGroup ∧ pFilter.ExcludeGroup = true then true
    else false

/-- `AggregatedStats::Filter(uintptr_t)` (`AggregatedStats.cpp:509-513`). -/
def AggregatedStats.Filter (s : AggregatedStats) (pAgentId : Nat) : Bool :=
  s.FilterInternal (s.mySourceData.Agents.lookup pAgentId) s.myOptions

/-- Insert `x` into a list before the first element `y` with `lt x y`
(insertion step of the sort; `std::sort`'s tie order is unspecified, so any
permutation ordered by the comparator is a faithful model). -/
def insertBy {α : Type} (lt : α → α → Bool) (x : α) : List α → List α
  | [] => [x]
  | y :: ys => if lt x y then x :: y :: ys else y :: insertBy lt x ys

/-- Insertion sort with a strict-order comparator, modelling `std::sort`. -/
def sortByLt {α : Type} (lt : α → α → Bool) : List α → List α
  | [] => []
  | x :: xs => insertBy lt x (sortByLt lt xs)

/-- `AggregatedStats::Sort` (`AggregatedStats.cpp:467-507`): dispatch on
`SortOrderChoice`, comparators as in the four lambdas. -/
def AggregatedStats.Sort (s : AggregatedStats)
    (pVector : List AggregatedStatsEntry) : List AggregatedStatsEntry :=
  match s.myOptions.SortOrderChoice with
  | SortOrder.AscendingAlphabetical =>
    sortByLt (fun l r => decide (l.Name < r.Name)) pVector
  | SortOrder.DescendingAlphabetical =>
    sortByLt (fun l r => decide (r.Name < l.Name)) pVector
  | SortOrder.AscendingSize =>
    sortByLt (fun l r => decide (l.Healing < r.Healing)) pVector
  | SortOrder.DescendingSize =>
    sortByLt (fun l r => decide (r.Healing < l.Healing)) pVector

/-- The `emplace`-then-accumulate step of `GetAllAgents`
(`AggregatedStats.cpp:453-460`), keeping the key-sorted order of
`std::map`. -/
def mapEmplaceAccum (k : Nat) (v : AgentStats) :
    List (Nat × AgentStats) → List (Nat × AgentStats)
  | [] => [(k, v)]
  | (k', v') :: rest =>
    if k = k' then (k', ⟨v'.TotalHealing + v.TotalHealing, v'.Ticks + v.Ticks⟩) :: rest
    else if k < k' then (k, v) :: (k', v') :: rest
    else (k', v') :: mapEmplaceAccum k v rest

/-- Inner-loop body of `GetAllAgents` (`AggregatedStats.cpp:451-461`). -/
def allAgentsInner (acc : List (Nat × AgentStats)) (q : Nat × AgentStats) :
    List (Nat × AgentStats) :=
  mapEmplaceAccum q.1 q.2 acc

/-- Outer-loop body of `GetAllAgents` (`AggregatedStats.cpp:449-462`). -/
def allAgentsOuter (acc : List (Nat × AgentStats)) (p : Nat × HealingSkill) :
    List (Nat × AgentStats) :=
  p.2.AgentsHealing.foldl allAgentsInner acc

/-- `AggregatedStats::GetAllAgents` (`AggregatedStats.cpp:440-465`):
filter-independent merge of per-skill per-agent records into per-agent
totals. -/
def AggregatedStats.GetAllAgents (s : AggregatedStats) : List (Nat × AgentStats) :=
  s.mySourceData.SkillsHealing.foldl allAgentsOuter []

/-- The agent-name block shared by `GetAgents` (`AggregatedStats.cpp:132-157`)
and `GetSkillDetails` (`AggregatedStats.cpp:332-357`): plain name (or the
numeric id when unmapped) in normal mode, an `id ; subgroup ; minion ; name`
diagnostic string in debug mode (`snprintf` %u prints a bool as 0/1; the
1024-byte truncation is not modelled). -/
def agentDisplayName (debugMode : Bool) (agentId : Nat)
    (mapAgent : Option HealedAgent) : String :=
  if debugMode = false then
    match mapAgent with
    | some a => a.Name
    | none => toString agentId
  else
    match mapAgent with
    | some a => toString agentId ++ " ; " ++ toString a.Subgroup ++ " ; "
        ++ (if a.IsMinion then "1" else "0") ++ " ; " ++ a.Name
    | none => toString agentId ++ " ; (UNMAPPED)"

/-- The skill-name block shared by `GetSkills` (`AggregatedStats.cpp:211-221`)
and `GetAgentDetails` (`AggregatedStats.cpp:275-285`). -/
def skillDisplayName (debugMode isIndirectHealing : Bool) (skillId : Nat)
    (name : String) : String :=
  if debugMode = false then name
  else (if isIndirectHealing then "(INDIRECT) ; " else "")
    ++ toString skillId ++ " ; " ++ name

/-- The shared loop body of `GetAgents` (`AggregatedStats.cpp:122-160`) and
`GetSkillDetails` (`AggregatedStats.cpp:322-360`): look the agent up, skip
it when the filter excludes it, otherwise emit one entry. -/
def AggregatedStats.filteredAddStep (s : AggregatedStats) (vec : AggregatedVector)
    (p : Nat × AgentStats) : AggregatedVector :=
  let mapAgent := s.mySourceData.Agents.lookup p.1
  if s.FilterInternal mapAgent s.myOptions = true then vec
  else vec.Add p.1 (agentDisplayName s.myDebugMode p.1 mapAgent)
    p.2.TotalHealing p.2.Ticks none

/-- `AggregatedStats::GetAgents` (`AggregatedStats.cpp:111-165`). -/
def AggregatedStats.GetAgents (s : AggregatedStats) : AggregatedVector :=
  let vec := s.GetAllAgents.foldl s.filteredAddStep ({} : AggregatedVector)
  { vec with Entries := s.Sort vec.Entries }

/-- The inner loop of `GetSkills` (`AggregatedStats.cpp:182-194`): sum a
skill's per-agent healing/ticks over the agents the filter admits. -/
def AggregatedStats.skillTotals (s : AggregatedStats) (skill : HealingSkill) : Nat × Nat :=
  skill.AgentsHealing.foldl (fun t q =>
    if s.Filter q.1 = true then t
    else (t.1 + q.2.TotalHealing, t.2 + q.2.Ticks)) (0, 0)

/-- The loop body of `GetSkills` (`AggregatedStats.cpp:180-224`): the fold
state is (vector so far, totalIndirectHealing, totalIndirectTicks); an
indirect skill feeds the accumulators and is skipped unless debug mode
additionally emits it. -/
def AggregatedStats.skillsStep (s : AggregatedStats)
    (acc : AggregatedVector × Nat × Nat) (p : Nat × HealingSkill) :
    AggregatedVector × Nat × Nat :=
  let totals := s.skillTotals p.2
  if s.IsSkillIndirectHealing p.1 p.2.Name = true then
    if s.myDebugMode = false then
      (acc.1, acc.2.1 + totals.1, acc.2.2 + totals.2)
    else
      (acc.1.Add p.1 (skillDisplayName s.myDebugMode true p.1 p.2.Name)
         totals.1 totals.2 none,
       acc.2.1 + totals.1, acc.2.2 + totals.2)
  else
    (acc.1.Add p.1 (skillDisplayName s.myDebugMode false p.1 p.2.Name)
       totals.1 totals.2 none,
     acc.2.1, acc.2.2)

/-- `AggregatedStats::GetSkills` (`AggregatedStats.cpp:167-236`). -/
def AggregatedStats.GetSkills (s : AggregatedStats) : AggregatedVector :=
  let acc := s.mySourceData.SkillsHealing.foldl s.skillsStep
    (({} : AggregatedVector), 0, 0)
  let vec :=
    if acc.2.1 ≠ 0 ∨ acc.2.2 ≠ 0 then
      acc.1.Add IndirectHealingSkillId "Healing by Damage Dealt" acc.2.1 acc.2.2 none
    else acc.1
  { vec with Entries := s.Sort vec.Entries }

/-- `AggregatedStats::GetTotal` (`AggregatedStats.cpp:44-61`): sum
healing/hits over the skills view's entries. -/
def AggregatedStats.GetTotal (s : AggregatedStats) : AggregatedStatsEntry :=
  let t := s.GetSkills.Entries.foldl (fun t e => (t.1 + e.Healing, t.2 + e.Hits)) (0, 0)
  ⟨0, "__TOTAL__", t.1, t.2, none⟩

/-- Inner-loop body of `GetAgentDetails` (`AggregatedStats.cpp:253-288`):
skip records of other agents, fold indirect skills as in `GetSkills`. -/
def AggregatedStats.agentDetailsStep (s : AggregatedStats) (pAgentId : Nat)
    (p : Nat × HealingSkill) (acc : AggregatedVector × Nat × Nat)
    (q : Nat × AgentStats) : AggregatedVector × Nat × Nat :=
  if q.1 ≠ pAgentId then acc
  else if s.IsSkillIndirectHealing p.1 p.2.Name = true then
    if s.myDebugMode = false then
      (acc.1, acc.2.1 + q.2.TotalHealing, acc.2.2 + q.2.Ticks)
    else
      (acc.1.Add p.1 (skillDisplayName s.myDebugMode true p.1 p.2.Name)
         q.2.TotalHealing q.2.Ticks none,
       acc.2.1 + q.2.TotalHealing, acc.2.2 + q.2.Ticks)
  else
    (acc.1.Add p.1 (skillDisplayName s.myDebugMode false p.1 p.2.Name)
       q.2.TotalHealing q.2.Ticks none,
     acc.2.1, acc.2.2)

/-- Outer-loop body of `GetAgentDetails` (`AggregatedStats.cpp:251-289`). -/
def AggregatedStats.agentDetailsSkillStep (s : AggregatedStats) (pAgentId : Nat)
    (acc : AggregatedVector × Nat × Nat) (p : Nat × HealingSkill) :
    AggregatedVector × Nat × Nat :=
  p.2.AgentsHealing.foldl (s.agentDetailsStep pAgentId p) acc

/-- `AggregatedStats::GetAgentDetails` (`AggregatedStats.cpp:238-301`):
per-agent skill breakdown with the same indirect-healing folding as
`GetSkills`, scoped to one agent; no agent filter is applied. -/
def AggregatedStats.GetAgentDetails (s : AggregatedStats) (pAgentId : Nat) : AggregatedVector :=
  let acc := s.mySourceData.SkillsHealing.foldl (s.agentDetailsSkillStep pAgentId)
    (({} : AggregatedVector), 0, 0)
  let vec :=
    if acc.2.1 ≠ 0 ∨ acc.2.2 ≠ 0 then
      acc.1.Add IndirectHealingSkillId "Healing by Damage Dealt" acc.2.1 acc.2.2 none
    else acc.1
  { vec with Entries := s.Sort vec.Entries }

/-- `AggregatedStats::GetSkillDetails` (`AggregatedStats.cpp:303-365`):
per-skill agent breakdown; an id absent from the skill map yields the empty
vector. -/
def AggregatedStats.GetSkillDetails (s : AggregatedStats) (pSkillId : Nat) : AggregatedVector :=
  match s.mySourceData.SkillsHealing.lookup pSkillId with
  | none => {}
  | some skill =>
    let vec := skill.AgentsHealing.foldl s.filteredAddStep ({} : AggregatedVector)
    { vec with Entries := s.Sort vec.Entries }

/-- `AggregatedStats::GetDetails` (`AggregatedStats.cpp:77-87`).  The
`Skills` case of the C++ switch calls `GetSkillDetails` but has no `return`
and falls through to the `Agents` case, so the computed per-skill table is
discarded and the per-agent table is returned for every data source. -/
def AggregatedStats.GetDetails (s : AggregatedStats) (pDataSource : DataSource)
    (pId : Nat) : AggregatedVector :=
  match pDataSource with
  | DataSource.Skills =>
    let _ := s.GetSkillDetails pId
    s.GetAgentDetails pId
  | DataSource.Agents => s.GetAgentDetails pId
  | DataSource.Totals => s.GetAgentDetails pId

/-- The synthetic preset built for each `GroupFilter` case
(`AggregatedStats.cpp:390-422`). -/
def groupFilterOptions : GroupFilter → HealWindowOptions
  | GroupFilter.Group =>
    { ExcludeGroup := false, ExcludeOffGroup := true, ExcludeOffSquad := true,
      ExcludeMinions := true, ExcludeUnmapped := true }
  | GroupFilter.Squad =>
    { ExcludeGroup := false, ExcludeOffGroup := false, ExcludeOffSquad := true,
      ExcludeMinions := true, ExcludeUnmapped := true }
  | GroupFilter.AllExcludingMinions =>
    { ExcludeGroup := false, ExcludeOffGroup := false, ExcludeOffSquad := false,
      ExcludeMinions := true, ExcludeUnmapped := true }
  | GroupFilter.All =>
    { ExcludeGroup := false, ExcludeOffGroup := false, ExcludeOffSquad := false,
      ExcludeMinions := false, ExcludeUnmapped := true }

/-- The four `GroupFilter` values in index order 0..3
(`GroupFilter::Group` .. `GroupFilter::All`). -/
def groupFilterList : List GroupFilter :=
  [GroupFilter.Group, GroupFilter.Squad, GroupFilter.AllExcludingMinions, GroupFilter.All]

/-- Per-agent loop body of `GetGroupFilterTotals`
(`AggregatedStats.cpp:382-430`): for each preset index, accumulate the
merged agent's totals into that preset's entry when the preset's synthetic
filter admits the agent. -/
def AggregatedStats.gftStep (s : AggregatedStats) (v : AggregatedVector)
    (p : Nat × AgentStats) : AggregatedVector :=
  let mapAgent := s.mySourceData.Agents.lookup p.1
  { v with Entries := (v.Entries.zip groupFilterList).map (fun eg =>
      if s.FilterInternal mapAgent (groupFilterOptions eg.2) = false then
        { eg.1 with Healing := eg.1.Healing + p.2.TotalHealing,
                    Hits := eg.1.Hits + p.2.Ticks }
      else eg.1) }

/-- `AggregatedStats::GetGroupFilterTotals` (`AggregatedStats.cpp:367-438`):
four zero entries in fixed order, then the per-agent accumulation, then the
running-maximum fold. -/
def AggregatedStats.GetGroupFilterTotals (s : AggregatedStats) : AggregatedVector :=
  let init := groupFilterList.foldl
    (fun v gf => v.Add 0 (GROUP_FILTER_STRING gf) 0 0 none) ({} : AggregatedVector)
  let accumulated := s.GetAllAgents.foldl s.gftStep init
  { accumulated with HighestHealing :=
      accumulated.Entries.foldl (fun m e => max m e.Healing) accumulated.HighestHealing }

/-- `AggregatedStats::GetStats` (`AggregatedStats.cpp:63-75`). -/
def AggregatedStats.GetStats (s : AggregatedStats) (pDataSource : DataSource) : AggregatedVector :=
  match pDataSource with
  | DataSource.Skills => s.GetSkills
  | DataSource.Agents => s.GetAgents
  | DataSource.Totals => s.GetGroupFilterTotals

/-- The `end` local of `GetCombatTime` (`AggregatedStats.cpp:91-105`). -/
def AggregatedStats.combatEnd (s : AggregatedStats) : Nat :=
  if s.myOptions.CombatEndConditionChoice = CombatEndCondition.CombatExit
      ∧ s.mySourceData.ExitedCombatTime ≠ 0 then
    s.mySourceData.ExitedCombatTime
  else if s.myOptions.CombatEndConditionChoice = CombatEndCondition.LastHealEvent
      ∧ s.mySourceData.LastHealEvent ≠ 0 then
    s.mySourceData.LastHealEvent
  else
    max s.mySourceData.EnteredCombatTime
      (max s.mySourceData.LastHealEvent s.mySourceData.LastDamageEvent)

/-- `AggregatedStats::GetCombatTime` (`AggregatedStats.cpp:89-109`); the
`float` result is modelled as an exact rational. -/
def AggregatedStats.GetCombatTime (s : AggregatedStats) : ℚ :=
  ((s.combatEnd : ℚ) - (s.mySourceData.EnteredCombatTime : ℚ)) / 1000

/-! ### Measurement helpers and generic fold lemmas -/

/-- Sum of the `Healing` fields over a table's entries (the quantity the
spec's conservation and monotonicity properties talk about). -/
def sumHealing (v : AggregatedVector) : Nat :=
  (v.Entries.map AggregatedStatsEntry.Healing).sum

/-- Sum of the `Hits` fields over a table's entries. -/
def sumHits (v : AggregatedVector) : Nat :=
  (v.Entries.map AggregatedStatsEntry.Hits).sum

theorem insertBy_perm {α : Type} (lt : α → α → Bool) (x : α) (l : List α) :
    (insertBy lt x l).Perm (x :: l) := by
  induction l with
  | nil => simp [insertBy]
  | cons y ys ih =>
    simp only [insertBy]
    split
    · exact List.Perm.refl _
    · exact (ih.cons y).trans (List.Perm.swap x y ys)

theorem sortByLt_perm {α : Type} (lt : α → α → Bool) (l : List α) :
    (sortByLt lt l).Perm l := by
  induction l with
  | nil => simp [sortByLt]
  | cons x xs ih => exact (insertBy_perm lt x (sortByLt lt xs)).trans (ih.cons x)

theorem Sort_perm (s : AggregatedStats) (l : List AggregatedStatsEntry) :
    (s.Sort l).Perm l := by
  unfold AggregatedStats.Sort
  cases s.myOptions.SortOrderChoice <;> exact sortByLt_perm _ l

theorem sort_map_sum (s : AggregatedStats) (l : List AggregatedStatsEntry)
    (f : AggregatedStatsEntry → Nat) :
    ((s.Sort l).map f).sum = (l.map f).sum :=
  ((Sort_perm s l).map f).sum_eq

theorem sumHealing_add (v : AggregatedVector) (i : Nat) (n : String)
    (h k : Nat) (c : Option Nat) : sumHealing (v.Add i n h k c) = sumHealing v + h := by
  simp [sumHealing, AggregatedVector.Add]

theorem sumHits_add (v : AggregatedVector) (i : Nat) (n : String)
    (h k : Nat) (c : Option Nat) : sumHits (v.Add i n h k c) = sumHits v + k := by
  simp [sumHits, AggregatedVector.Add]

/-- A left fold whose step increases a numeric measure by a per-element
amount ends with the initial measure plus the sum of the amounts. -/
theorem foldl_measure {σ β : Type} (f : σ → β → σ) (μ : σ → Nat) (g : β → Nat)
    (hf : ∀ a b, μ (f a b) = μ a + g b) :
    ∀ (l : List β) (a : σ), μ (l.foldl f a) = μ a + (l.map g).sum := by
  intro l
  induction l with
  | nil => simp
  | cons x xs ih =>
    intro a
    simp only [List.foldl_cons, List.map_cons, List.sum_cons, ih, hf, Nat.add_assoc]

/-- A left fold whose step preserves a boolean predicate preserves it from
the initial state. -/
theorem foldl_pred {σ β : Type} (f : σ → β → σ) (P : σ → Bool)
    (hf : ∀ a b, P a = true → P (f a b) = true) :
    ∀ (l : List β) (a : σ), P a = true → P (l.foldl f a) = true := by
  intro l
  induction l with
  | nil => simp
  | cons x xs ih => intro a ha; exact ih (f a x) (hf a x ha)

/-! ### Filter engine characterization and monotonicity -/

theorem FilterInternal_none (s : AggregatedStats) (f : HealWindowOptions) :
    s.FilterInternal none f = f.ExcludeUnmapped := by
  cases hEU : f.ExcludeUnmapped <;> simp [AggregatedStats.FilterInternal, hEU]

theorem FilterInternal_some_iff (s : AggregatedStats) (a : HealedAgent)
    (f : HealWindowOptions) :
    s.FilterInternal (some a) f = true ↔
      (a.IsMinion = true ∧ f.ExcludeMinions = true) ∨
      (a.Subgroup = 0 ∧ s.mySourceData.SubGroup ≠ 0 ∧ f.ExcludeOffSquad = true) ∨
      (a.Subgroup ≠ 0 ∧ s.mySourceData.SubGroup ≠ a.Subgroup ∧ f.ExcludeOffGroup = true) ∨
      (a.Subgroup = s.mySourceData.SubGroup ∧ f.ExcludeGroup = true) := by
  simp only [AggregatedStats.FilterInternal]
  split_ifs with h1 h2 h3 h4 <;> simp_all

/-- Pointwise ordering of the five exclusion switches: every exclusion
enabled in `c` is also enabled in `c'`. -/
def optionsLe (c c' : HealWindowOptions) : Prop :=
  (c.ExcludeGroup = true → c'.ExcludeGroup = true) ∧
  (c.ExcludeOffGroup = true → c'.ExcludeOffGroup = true) ∧
  (c.ExcludeOffSquad = true → c'.ExcludeOffSquad = true) ∧
  (c.ExcludeMinions = true → c'.ExcludeMinions = true) ∧
  (c.ExcludeUnmapped = true → c'.ExcludeUnmapped = true)

instance (c c' : HealWindowOptions) : Decidable (optionsLe c c') := by
  unfold optionsLe; infer_instance

theorem FilterInternal_mono (s : AggregatedStats) {c c' : HealWindowOptions}
    (h : optionsLe c c') (a : Option HealedAgent) :
    s.FilterInternal a c = true → s.FilterInternal a c' = true := by
  obtain ⟨hG, hOG, hOS, hM, hU⟩ := h
  cases a with
  | none =>
    rw [FilterInternal_none, FilterInternal_none]
    exact hU
  | some ag =>
    rw [FilterInternal_some_iff, FilterInternal_some_iff]
    rintro (⟨h1, h2⟩ | ⟨h1, h2, h3⟩ | ⟨h1, h2, h3⟩ | ⟨h1, h2⟩)
    · exact Or.inl ⟨h1, hM h2⟩
    · exact Or.inr (Or.inl ⟨h1, h2, hOS h3⟩)
    · exact Or.inr (Or.inr (Or.inl ⟨h1, h2, hOG h3⟩))
    · exact Or.inr (Or.inr (Or.inr ⟨h1, hG h2⟩))

theorem ite_filter_mono (s : AggregatedStats) {c c' : HealWindowOptions}
    (h : optionsLe c c') (a : Option HealedAgent) (n : Nat) :
    (if s.FilterInternal a c' = true then 0 else n)
      ≤ (if s.FilterInternal a c = true then 0 else n) := by
  by_cases hx : s.FilterInternal a c = true
  · simp [hx, FilterInternal_mono s h a hx]
  · simp only [hx, if_false]
    split <;> simp

/-! ### Sum characterizations of the views -/

theorem skillTotals_fst (s : AggregatedStats) (sk : HealingSkill) :
    (s.skillTotals sk).1 = (sk.AgentsHealing.map (fun q =>
      if s.Filter q.1 = true then 0 else q.2.TotalHealing)).sum := by
  have h := foldl_measure
    (fun t q => if s.Filter q.1 = true then t else (t.1 + q.2.TotalHealing, t.2 + q.2.Ticks))
    Prod.fst
    (fun q => if s.Filter q.1 = true then 0 else q.2.TotalHealing)
    (fun a b => by dsimp only; split <;> simp)
    sk.AgentsHealing (0, 0)
  simpa [AggregatedStats.skillTotals] using h

theorem skillTotals_snd (s : AggregatedStats) (sk : HealingSkill) :
    (s.skillTotals sk).2 = (sk.AgentsHealing.map (fun q =>
      if s.Filter q.1 = true then 0 else q.2.Ticks)).sum := by
  have h := foldl_measure
    (fun t q => if s.Filter q.1 = true then t else (t.1 + q.2.TotalHealing, t.2 + q.2.Ticks))
    Prod.snd
    (fun q => if s.Filter q.1 = true then 0 else q.2.Ticks)
    (fun a b => by dsimp only; split <;> simp)
    sk.AgentsHealing (0, 0)
  simpa [AggregatedStats.skillTotals] using h

theorem filteredAddStep_sumHealing (s : AggregatedStats) (v : AggregatedVector)
    (p : Nat × AgentStats) :
    sumHealing (s.filteredAddStep v p) = sumHealing v + (if s.Filter p.1 = true then 0 else p.2.TotalHealing) := by
  unfold AggregatedStats.filteredAddStep AggregatedStats.Filter
  split <;> simp_all [sumHealing_add]

theorem filteredAddStep_sumHits (s : AggregatedStats) (v : AggregatedVector)
    (p : Nat × AgentStats) :
    sumHits (s.filteredAddStep v p) = sumHits v + (if s.Filter p.1 = true then 0 else p.2.Ticks) := by
  unfold AggregatedStats.filteredAddStep AggregatedStats.Filter
  split <;> simp_all [sumHits_add]

theorem getAgents_sumHealing (s : AggregatedStats) :
    sumHealing s.GetAgents = (s.GetAllAgents.map (fun p =>
      if s.Filter p.1 = true then 0 else p.2.TotalHealing)).sum := by
  have h := foldl_measure s.filteredAddStep sumHealing
    (fun p => if s.Filter p.1 = true then 0 else p.2.TotalHealing)
    (filteredAddStep_sumHealing s) s.GetAllAgents ({} : AggregatedVector)
  unfold AggregatedStats.GetAgents
  simpa [sumHealing, sort_map_sum] using h

theorem getAgents_sumHits (s : AggregatedStats) :
    sumHits s.GetAgents = (s.GetAllAgents.map (fun p =>
      if s.Filter p.1 = true then 0 else p.2.Ticks)).sum := by
  have h := foldl_measure s.filteredAddStep sumHits
    (fun p => if s.Filter p.1 = true then 0 else p.2.Ticks)
    (filteredAddStep_sumHits s) s.GetAllAgents ({} : AggregatedVector)
  unfold AggregatedStats.GetAgents
  simpa [sumHits, sort_map_sum] using h

theorem getSkillDetails_sumHealing (s : AggregatedStats) (pSkillId : Nat) :
    sumHealing (s.GetSkillDetails pSkillId) =
      match s.mySourceData.SkillsHealing.lookup pSkillId with
      | none => 0
      | some sk => (sk.AgentsHealing.map (fun q =>
          if s.Filter q.1 = true then 0 else q.2.TotalHealing)).sum := by
  unfold AggregatedStats.GetSkillDetails
  cases hlk : s.mySourceData.SkillsHealing.lookup pSkillId with
  | none => simp [sumHealing]
  | some sk =>
    have h := foldl_measure s.filteredAddStep sumHealing
      (fun p => if s.Filter p.1 = true then 0 else p.2.TotalHealing)
      (filteredAddStep_sumHealing s) sk.AgentsHealing ({} : AggregatedVector)
    simpa [sumHealing, sort_map_sum] using h

theorem getSkillDetails_sumHits (s : AggregatedStats) (pSkillId : Nat) :
    sumHits (s.GetSkillDetails pSkillId) =
      match s.mySourceData.SkillsHealing.lookup pSkillId with
      | none => 0
      | some sk => (sk.AgentsHealing.map (fun q =>
          if s.Filter q.1 = true then 0 else q.2.Ticks)).sum := by
  unfold AggregatedStats.GetSkillDetails
  cases hlk : s.mySourceData.SkillsHealing.lookup pSkillId with
  | none => simp [sumHits]
  | some sk =>
    have h := foldl_measure s.filteredAddStep sumHits
      (fun p => if s.Filter p.1 = true then 0 else p.2.Ticks)
      (filteredAddStep_sumHits s) sk.AgentsHealing ({} : AggregatedVector)
    simpa [sumHits, sort_map_sum] using h

/-- Total contribution of one skill record to the skills view's sums: its
filtered totals, doubled when debug mode additionally emits an indirect
skill next to folding it into the synthetic bucket. -/
def AggregatedStats.skillContribution (s : AggregatedStats) (p : Nat × HealingSkill) : Nat × Nat :=
  let t := s.skillTotals p.2
  if s.IsSkillIndirectHealing p.1 p.2.Name = true ∧ s.myDebugMode = true then
    (t.1 + t.1, t.2 + t.2)
  else t

theorem skillsStep_healing (s : AggregatedStats) (acc : AggregatedVector × Nat × Nat)
    (p : Nat × HealingSkill) :
    sumHealing (s.skillsStep acc p).1 + (s.skillsStep acc p).2.1
      = (sumHealing acc.1 + acc.2.1) + (s.skillContribution p).1 := by
  unfold AggregatedStats.skillsStep AggregatedStats.skillContribution
  cases hind : s.IsSkillIndirectHealing p.1 p.2.Name <;>
    cases hdbg : s.myDebugMode <;>
      simp [hind, hdbg, sumHealing_add] <;> omega

theorem skillsStep_hits (s : AggregatedStats) (acc : AggregatedVector × Nat × Nat)
    (p : Nat × HealingSkill) :
    sumHits (s.skillsStep acc p).1 + (s.skillsStep acc p).2.2
      = (sumHits acc.1 + acc.2.2) + (s.skillContribution p).2 := by
  unfold AggregatedStats.skillsStep AggregatedStats.skillContribution
  cases hind : s.IsSkillIndirectHealing p.1 p.2.Name <;>
    cases hdbg : s.myDebugMode <;>
      simp [hind, hdbg, sumHits_add] <;> omega

theorem getSkills_sumHealing (s : AggregatedStats) :
    sumHealing s.GetSkills
      = (s.mySourceData.SkillsHealing.map (fun p => (s.skillContribution p).1)).sum := by
  have h := foldl_measure s.skillsStep (fun acc => sumHealing acc.1 + acc.2.1)
    (fun p => (s.skillContribution p).1) (skillsStep_healing s)
    s.mySourceData.SkillsHealing (({} : AggregatedVector), 0, 0)
  unfold AggregatedStats.GetSkills
  have hsort : ∀ v : AggregatedVector,
      sumHealing { v with Entries := s.Sort v.Entries } = sumHealing v := by
    intro v; simp [sumHealing, sort_map_sum]
  dsimp only
  generalize hfold : s.mySourceData.SkillsHealing.foldl s.skillsStep
    (({} : AggregatedVector), 0, 0) = acc at h ⊢
  obtain ⟨vec, ih, it⟩ := acc
  simp only [sumHealing] at h ⊢
  by_cases hc : ih ≠ 0 ∨ it ≠ 0
  · rw [if_pos hc, sort_map_sum]
    have hadd := sumHealing_add vec IndirectHealingSkillId "Healing by Damage Dealt" ih it none
    simp only [sumHealing] at hadd
    rw [hadd]
    simpa using h
  · have hih : ih = 0 := by omega
    rw [if_neg hc, sort_map_sum]
    simp only [hih] at h
    simpa using h

theorem getSkills_sumHits (s : AggregatedStats) :
    sumHits s.GetSkills
      = (s.mySourceData.SkillsHealing.map (fun p => (s.skillContribution p).2)).sum := by
  have h := foldl_measure s.skillsStep (fun acc => sumHits acc.1 + acc.2.2)
    (fun p => (s.skillContribution p).2) (skillsStep_hits s)
    s.mySourceData.SkillsHealing (({} : AggregatedVector), 0, 0)
  unfold AggregatedStats.GetSkills
  dsimp only
  generalize hfold : s.mySourceData.SkillsHealing.foldl s.skillsStep
    (({} : AggregatedVector), 0, 0) = acc at h ⊢
  obtain ⟨vec, ih, it⟩ := acc
  simp only [sumHits] at h ⊢
  by_cases hc : ih ≠ 0 ∨ it ≠ 0
  · rw [if_pos hc, sort_map_sum]
    have hadd := sumHits_add vec IndirectHealingSkillId "Healing by Damage Dealt" ih it none
    simp only [sumHits] at hadd
    rw [hadd]
    simpa using h
  · have hit : it = 0 := by omega
    rw [if_neg hc, sort_map_sum]
    simp only [hit] at h
    simpa using h

theorem getTotal_healing (s : AggregatedStats) :
    s.GetTotal.Healing = sumHealing s.GetSkills := by
  have h := foldl_measure (fun t (e : AggregatedStatsEntry) => (t.1 + e.Healing, t.2 + e.Hits))
    Prod.fst AggregatedStatsEntry.Healing (fun a b => by dsimp only)
    s.GetSkills.Entries (0, 0)
  unfold AggregatedStats.GetTotal
  simpa [sumHealing] using h

theorem getTotal_hits (s : AggregatedStats) :
    s.GetTotal.Hits = sumHits s.GetSkills := by
  have h := foldl_measure (fun t (e : AggregatedStatsEntry) => (t.1 + e.Healing, t.2 + e.Hits))
    Prod.snd AggregatedStatsEntry.Hits (fun a b => by dsimp only)
    s.GetSkills.Entries (0, 0)
  unfold AggregatedStats.GetTotal
  simpa [sumHits] using h

/-- Contribution of one (skill, agent-record) pair to the agent-details
sums: zero for other agents, the record's totals otherwise, doubled when
debug mode also emits an indirect skill alongside the synthetic bucket. -/
def AggregatedStats.agentDetailContribution (s : AggregatedStats) (pAgentId : Nat)
    (p : Nat × HealingSkill) (q : Nat × AgentStats) : Nat × Nat :=
  if q.1 ≠ pAgentId then (0, 0)
  else if s.IsSkillIndirectHealing p.1 p.2.Name = true ∧ s.myDebugMode = true then
    (q.2.TotalHealing + q.2.TotalHealing, q.2.Ticks + q.2.Ticks)
  else (q.2.TotalHealing, q.2.Ticks)

theorem agentDetailsStep_healing (s : AggregatedStats) (pAgentId : Nat)
    (p : Nat × HealingSkill) (acc : AggregatedVector × Nat × Nat) (q : Nat × AgentStats) :
    sumHealing (s.agentDetailsStep pAgentId p acc q).1 + (s.agentDetailsStep pAgentId p acc q).2.1
      = (sumHealing acc.1 + acc.2.1) + (s.agentDetailContribution pAgentId p q).1 := by
  unfold AggregatedStats.agentDetailsStep AggregatedStats.agentDetailContribution
  by_cases hq : q.1 ≠ pAgentId
  · simp [hq]
  · cases hind : s.IsSkillIndirectHealing p.1 p.2.Name <;>
      cases hdbg : s.myDebugMode <;>
        simp [hq, hind, hdbg, sumHealing_add] <;> omega

theorem agentDetailsStep_hits (s : AggregatedStats) (pAgentId : Nat)
    (p : Nat × HealingSkill) (acc : AggregatedVector × Nat × Nat) (q : Nat × AgentStats) :
    sumHits (s.agentDetailsStep pAgentId p acc q).1 + (s.agentDetailsStep pAgentId p acc q).2.2
      = (sumHits acc.1 + acc.2.2) + (s.agentDetailContribution pAgentId p q).2 := by
  unfold AggregatedStats.agentDetailsStep AggregatedStats.agentDetailContribution
  by_cases hq : q.1 ≠ pAgentId
  · simp [hq]
  · cases hind : s.IsSkillIndirectHealing p.1 p.2.Name <;>
      cases hdbg : s.myDebugMode <;>
        simp [hq, hind, hdbg, sumHits_add] <;> omega

theorem agentDetailsSkillStep_healing (s : AggregatedStats) (pAgentId : Nat)
    (acc : AggregatedVector × Nat × Nat) (p : Nat × HealingSkill) :
    sumHealing (s.agentDetailsSkillStep pAgentId acc p).1
        + (s.agentDetailsSkillStep pAgentId acc p).2.1
      = (sumHealing acc.1 + acc.2.1)
        + (p.2.AgentsHealing.map (fun q => (s.agentDetailContribution pAgentId p q).1)).sum := by
  unfold AggregatedStats.agentDetailsSkillStep
  exact foldl_measure (s.agentDetailsStep pAgentId p)
    (fun acc => sumHealing acc.1 + acc.2.1)
    (fun q => (s.agentDetailContribution pAgentId p q).1)
    (agentDetailsStep_healing s pAgentId p) p.2.AgentsHealing acc

theorem agentDetailsSkillStep_hits (s : AggregatedStats) (pAgentId : Nat)
    (acc : AggregatedVector × Nat × Nat) (p : Nat × HealingSkill) :
    sumHits (s.agentDetailsSkillStep pAgentId acc p).1
        + (s.agentDetailsSkillStep pAgentId acc p).2.2
      = (sumHits acc.1 + acc.2.2)
        + (p.2.AgentsHealing.map (fun q => (s.agentDetailContribution pAgentId p q).2)).sum := by
  unfold AggregatedStats.agentDetailsSkillStep
  exact foldl_measure (s.agentDetailsStep pAgentId p)
    (fun acc => sumHits acc.1 + acc.2.2)
    (fun q => (s.agentDetailContribution pAgentId p q).2)
    (agentDetailsStep_hits s pAgentId p) p.2.AgentsHealing acc

theorem getAgentDetails_sumHealing (s : AggregatedStats) (pAgentId : Nat) :
    sumHealing (s.GetAgentDetails pAgentId)
      = (s.mySourceData.SkillsHealing.map (fun p =>
          (p.2.AgentsHealing.map (fun q => (s.agentDetailContribution pAgentId p q).1)).sum)).sum := by
  have h := foldl_measure (s.agentDetailsSkillStep pAgentId)
    (fun acc => sumHealing acc.1 + acc.2.1)
    (fun p => (p.2.AgentsHealing.map (fun q => (s.agentDetailContribution pAgentId p q).1)).sum)
    (agentDetailsSkillStep_healing s pAgentId)
    s.mySourceData.SkillsHealing (({} : AggregatedVector), 0, 0)
  unfold AggregatedStats.GetAgentDetails
  dsimp only
  generalize hfold : s.mySourceData.SkillsHealing.foldl (s.agentDetailsSkillStep pAgentId)
    (({} : AggregatedVector), 0, 0) = acc at h ⊢
  obtain ⟨vec, ih, it⟩ := acc
  simp only [sumHealing] at h ⊢
  by_cases hc : ih ≠ 0 ∨ it ≠ 0
  · rw [if_pos hc, sort_map_sum]
    have hadd := sumHealing_add vec IndirectHealingSkillId "Healing by Damage Dealt" ih it none
    simp only [sumHealing] at hadd
    rw [hadd]
    simpa using h
  · have hih : ih = 0 := by omega
    rw [if_neg hc, sort_map_sum]
    simp only [hih] at h
    simpa using h

theorem getAgentDetails_sumHits (s : AggregatedStats) (pAgentId : Nat) :
    sumHits (s.GetAgentDetails pAgentId)
      = (s.mySourceData.SkillsHealing.map (fun p =>
          (p.2.AgentsHealing.map (fun q => (s.agentDetailContribution pAgentId p q).2)).sum)).sum := by
  have h := foldl_measure (s.agentDetailsSkillStep pAgentId)
    (fun acc => sumHits acc.1 + acc.2.2)
    (fun p => (p.2.AgentsHealing.map (fun q => (s.agentDetailContribution pAgentId p q).2)).sum)
    (agentDetailsSkillStep_hits s pAgentId)
    s.mySourceData.SkillsHealing (({} : AggregatedVector), 0, 0)
  unfold AggregatedStats.GetAgentDetails
  dsimp only
  generalize hfold : s.mySourceData.SkillsHealing.foldl (s.agentDetailsSkillStep pAgentId)
    (({} : AggregatedVector), 0, 0) = acc at h ⊢
  obtain ⟨vec, ih, it⟩ := acc
  simp only [sumHits] at h ⊢
  by_cases hc : ih ≠ 0 ∨ it ≠ 0
  · rw [if_pos hc, sort_map_sum]
    have hadd := sumHits_add vec IndirectHealingSkillId "Healing by Damage Dealt" ih it none
    simp only [sumHits] at hadd
    rw [hadd]
    simpa using h
  · have hit : it = 0 := by omega
    rw [if_neg hc, sort_map_sum]
    simp only [hit] at h
    simpa using h

/-! ### The merge step counts every record exactly once -/

theorem mapEmplaceAccum_wsum (w : Nat × AgentStats → Nat)
    (hw : ∀ (k : Nat) (v v' : AgentStats),
      w (k, ⟨v'.TotalHealing + v.TotalHealing, v'.Ticks + v.Ticks⟩) = w (k, v') + w (k, v)) :
    ∀ (k : Nat) (v : AgentStats) (l : List (Nat × AgentStats)),
      ((mapEmplaceAccum k v l).map w).sum = w (k, v) + (l.map w).sum := by
  intro k v l
  induction l with
  | nil => simp [mapEmplaceAccum]
  | cons x rest ih =>
    obtain ⟨k', v'⟩ := x
    simp only [mapEmplaceAccum]
    by_cases hk : k = k'
    · subst hk
      rw [if_pos rfl]
      simp only [List.map_cons, List.sum_cons, hw]
      omega
    · by_cases hlt : k < k'
      · simp only [hk, if_false, if_pos hlt, List.map_cons, List.sum_cons]
      · simp only [hk, if_false, if_neg hlt, List.map_cons, List.sum_cons, ih]
        omega

theorem allAgentsInner_wsum (w : Nat × AgentStats → Nat)
    (hw : ∀ (k : Nat) (v v' : AgentStats),
      w (k, ⟨v'.TotalHealing + v.TotalHealing, v'.Ticks + v.Ticks⟩) = w (k, v') + w (k, v))
    (acc : List (Nat × AgentStats)) (q : Nat × AgentStats) :
    ((allAgentsInner acc q).map w).sum = (acc.map w).sum + w q := by
  obtain ⟨qk, qv⟩ := q
  unfold allAgentsInner
  dsimp only
  rw [mapEmplaceAccum_wsum w hw]
  omega

theorem allAgentsOuter_wsum (w : Nat × AgentStats → Nat)
    (hw : ∀ (k : Nat) (v v' : AgentStats),
      w (k, ⟨v'.TotalHealing + v.TotalHealing, v'.Ticks + v.Ticks⟩) = w (k, v') + w (k, v))
    (acc : List (Nat × AgentStats)) (p : Nat × HealingSkill) :
    ((allAgentsOuter acc p).map w).sum = (acc.map w).sum + (p.2.AgentsHealing.map w).sum := by
  unfold allAgentsOuter
  exact foldl_measure allAgentsInner (fun l => (l.map w).sum) w
    (allAgentsInner_wsum w hw) p.2.AgentsHealing acc

/-- Weighted sums over the merged agent map equal the weighted sums over
every (skill, agent) record: the merge counts each record exactly once. -/
theorem getAllAgents_wsum (s : AggregatedStats) (w : Nat × AgentStats → Nat)
    (hw : ∀ (k : Nat) (v v' : AgentStats),
      w (k, ⟨v'.TotalHealing + v.TotalHealing, v'.Ticks + v.Ticks⟩) = w (k, v') + w (k, v)) :
    ((s.GetAllAgents).map w).sum
      = (s.mySourceData.SkillsHealing.map (fun p => (p.2.AgentsHealing.map w).sum)).sum := by
  have h := foldl_measure allAgentsOuter (fun l => (l.map w).sum)
    (fun p => (p.2.AgentsHealing.map w).sum)
    (allAgentsOuter_wsum w hw) s.mySourceData.SkillsHealing []
  unfold AggregatedStats.GetAllAgents
  simpa using h

/-- Conservation bridge: the agents view's healing sum equals the sum over
all skills of their filtered per-skill healing totals. -/
theorem getAgents_sumHealing_skills (s : AggregatedStats) :
    sumHealing s.GetAgents
      = (s.mySourceData.SkillsHealing.map (fun p => (s.skillTotals p.2).1)).sum := by
  rw [getAgents_sumHealing]
  rw [getAllAgents_wsum s (fun q => if s.Filter q.1 = true then 0 else q.2.TotalHealing)]
  · simp only [skillTotals_fst]
  · intro k v v'
    by_cases hf : s.Filter k = true <;> simp [hf]

theorem getAgents_sumHits_skills (s : AggregatedStats) :
    sumHits s.GetAgents
      = (s.mySourceData.SkillsHealing.map (fun p => (s.skillTotals p.2).2)).sum := by
  rw [getAgents_sumHits]
  rw [getAllAgents_wsum s (fun q => if s.Filter q.1 = true then 0 else q.2.Ticks)]
  · simp only [skillTotals_snd]
  · intro k v v'
    by_cases hf : s.Filter k = true <;> simp [hf]

/-! ### Group-filter totals characterization -/

/-- Healing accumulated into one preset's entry: the merged agents the
preset's synthetic filter admits. -/
def AggregatedStats.presetHealing (s : AggregatedStats) (gf : GroupFilter) : Nat :=
  (s.GetAllAgents.map (fun p =>
    if s.FilterInternal (s.mySourceData.Agents.lookup p.1) (groupFilterOptions gf) = false
    then p.2.TotalHealing else 0)).sum

/-- Hits accumulated into one preset's entry. -/
def AggregatedStats.presetHits (s : AggregatedStats) (gf : GroupFilter) : Nat :=
  (s.GetAllAgents.map (fun p =>
    if s.FilterInternal (s.mySourceData.Agents.lookup p.1) (groupFilterOptions gf) = false
    then p.2.Ticks else 0)).sum

theorem gftStep_foldl (s : AggregatedStats) :
    ∀ (l : List (Nat × AgentStats)) (e : GroupFilter → AggregatedStatsEntry) (hh : Nat),
      l.foldl s.gftStep ⟨groupFilterList.map e, hh⟩
        = ⟨groupFilterList.map (fun gf =>
            { e gf with
              Healing := (e gf).Healing + (l.map (fun p =>
                if s.FilterInternal (s.mySourceData.Agents.lookup p.1) (groupFilterOptions gf) = false
                then p.2.TotalHealing else 0)).sum,
              Hits := (e gf).Hits + (l.map (fun p =>
                if s.FilterInternal (s.mySourceData.Agents.lookup p.1) (groupFilterOptions gf) = false
                then p.2.Ticks else 0)).sum }), hh⟩ := by
  intro l
  induction l with
  | nil =>
    intro e hh
    simp [groupFilterList]
  | cons x rest ih =>
    intro e hh
    rw [List.foldl_cons]
    have hstep : s.gftStep ⟨groupFilterList.map e, hh⟩ x
        = ⟨groupFilterList.map (fun gf =>
            if s.FilterInternal (s.mySourceData.Agents.lookup x.1) (groupFilterOptions gf) = false
            then { e gf with Healing := (e gf).Healing + x.2.TotalHealing,
                             Hits := (e gf).Hits + x.2.Ticks }
            else e gf), hh⟩ := by
      simp [AggregatedStats.gftStep, groupFilterList]
    rw [hstep, ih]
    simp only [groupFilterList, List.map, List.map_cons, List.sum_cons]
    split_ifs <;> simp [Nat.add_assoc]

theorem gft_entries (s : AggregatedStats) :
    s.GetGroupFilterTotals.Entries
      = groupFilterList.map (fun gf =>
          ⟨0, GROUP_FILTER_STRING gf, s.presetHealing gf, s.presetHits gf, none⟩) := by
  unfold AggregatedStats.GetGroupFilterTotals
  dsimp only
  have hinit : (groupFilterList.foldl
      (fun v gf => v.Add 0 (GROUP_FILTER_STRING gf) 0 0 none) ({} : AggregatedVector))
      = ⟨groupFilterList.map (fun gf => ⟨0, GROUP_FILTER_STRING gf, 0, 0, none⟩), 0⟩ := by
    rfl
  rw [hinit, gftStep_foldl]
  simp [AggregatedStats.presetHealing, AggregatedStats.presetHits, groupFilterList]

/-! ### Casts are never populated -/

/-- Every entry of the table has its optional `Casts` field absent. -/
def noCasts (v : AggregatedVector) : Bool :=
  v.Entries.all (fun e => e.Casts == none)

theorem perm_all {α : Type} {l l' : List α} (h : l.Perm l') (P : α → Bool) :
    l.all P = l'.all P := by
  induction h with
  | nil => rfl
  | cons x _ ih => simp [List.all_cons, ih]
  | swap x y l => simp [List.all_cons, Bool.and_left_comm]
  | trans _ _ ih1 ih2 => rw [ih1, ih2]

theorem noCasts_add_none (v : AggregatedVector) (i : Nat) (n : String) (h k : Nat) :
    noCasts (v.Add i n h k none) = noCasts v := by
  simp [noCasts, AggregatedVector.Add, List.all_append]

theorem noCasts_sort (s : AggregatedStats) (v : AggregatedVector) :
    noCasts { v with Entries := s.Sort v.Entries } = noCasts v := by
  simp only [noCasts]
  exact perm_all (Sort_perm s v.Entries) _

theorem noCasts_filteredAddStep (s : AggregatedStats) (v : AggregatedVector)
    (p : Nat × AgentStats) : noCasts v = true → noCasts (s.filteredAddStep v p) = true := by
  intro hv
  unfold AggregatedStats.filteredAddStep
  dsimp only
  split
  · exact hv
  · rw [noCasts_add_none]; exact hv

theorem noCasts_getAgents (s : AggregatedStats) : noCasts s.GetAgents = true := by
  unfold AggregatedStats.GetAgents
  dsimp only
  rw [noCasts_sort]
  exact foldl_pred s.filteredAddStep noCasts (noCasts_filteredAddStep s)
    s.GetAllAgents ({} : AggregatedVector) rfl

theorem noCasts_skillsStep (s : AggregatedStats) (acc : AggregatedVector × Nat × Nat)
    (p : Nat × HealingSkill) :
    noCasts acc.1 = true → noCasts (s.skillsStep acc p).1 = true := by
  intro hv
  unfold AggregatedStats.skillsStep
  dsimp only
  split
  · split
    · exact hv
    · rw [noCasts_add_none]; exact hv
  · rw [noCasts_add_none]; exact hv

theorem noCasts_getSkills (s : AggregatedStats) : noCasts s.GetSkills = true := by
  unfold AggregatedStats.GetSkills
  dsimp only
  rw [noCasts_sort]
  have hfold := foldl_pred s.skillsStep (fun acc => noCasts acc.1) (noCasts_skillsStep s)
    s.mySourceData.SkillsHealing (({} : AggregatedVector), 0, 0) rfl
  split
  · rw [noCasts_add_none]; exact hfold
  · exact hfold

theorem noCasts_agentDetailsStep (s : AggregatedStats) (pAgentId : Nat)
    (p : Nat × HealingSkill) (acc : AggregatedVector × Nat × Nat) (q : Nat × AgentStats) :
    noCasts acc.1 = true → noCasts (s.agentDetailsStep pAgentId p acc q).1 = true := by
  intro hv
  unfold AggregatedStats.agentDetailsStep
  split
  · exact hv
  · split
    · split
      · exact hv
      · rw [noCasts_add_none]; exact hv
    · rw [noCasts_add_none]; exact hv

theorem noCasts_agentDetailsSkillStep (s : AggregatedStats) (pAgentId : Nat)
    (acc : AggregatedVector × Nat × Nat) (p : Nat × HealingSkill) :
    noCasts acc.1 = true → noCasts (s.agentDetailsSkillStep pAgentId acc p).1 = true := by
  intro hv
  unfold AggregatedStats.agentDetailsSkillStep
  exact foldl_pred (s.agentDetailsStep pAgentId p) (fun acc => noCasts acc.1)
    (noCasts_agentDetailsStep s pAgentId p) p.2.AgentsHealing acc hv

theorem noCasts_getAgentDetails (s : AggregatedStats) (pAgentId : Nat) :
    noCasts (s.GetAgentDetails pAgentId) = true := by
  unfold AggregatedStats.GetAgentDetails
  dsimp only
  rw [noCasts_sort]
  have hfold := foldl_pred (s.agentDetailsSkillStep pAgentId) (fun acc => noCasts acc.1)
    (noCasts_agentDetailsSkillStep s pAgentId)
    s.mySourceData.SkillsHealing (({} : AggregatedVector), 0, 0) rfl
  split
  · rw [noCasts_add_none]; exact hfold
  · exact hfold

theorem noCasts_getSkillDetails (s : AggregatedStats) (pSkillId : Nat) :
    noCasts (s.GetSkillDetails pSkillId) = true := by
  unfold AggregatedStats.GetSkillDetails
  cases hlk : s.mySourceData.SkillsHealing.lookup pSkillId with
  | none => rfl
  | some sk =>
    dsimp only
    rw [noCasts_sort]
    exact foldl_pred s.filteredAddStep noCasts (noCasts_filteredAddStep s)
      sk.AgentsHealing ({} : AggregatedVector) rfl

theorem noCasts_getGroupFilterTotals (s : AggregatedStats) :
    noCasts s.GetGroupFilterTotals = true := by
  have h := gft_entries s
  simp [noCasts, h, groupFilterList]

/-! ### Preset monotonicity -/

theorem ite_false_eq_ite_true (b : Bool) (n : Nat) :
    (if b = false then n else 0) = (if b = true then 0 else n) := by
  cases b <;> simp

theorem presetHealing_mono (s : AggregatedStats) {g g' : GroupFilter}
    (h : optionsLe (groupFilterOptions g') (groupFilterOptions g)) :
    s.presetHealing g ≤ s.presetHealing g' := by
  unfold AggregatedStats.presetHealing
  simp only [ite_false_eq_ite_true]
  apply List.sum_le_sum
  intro p hp
  exact ite_filter_mono s h (s.mySourceData.Agents.lookup p.1) p.2.TotalHealing

theorem presetHits_mono (s : AggregatedStats) {g g' : GroupFilter}
    (h : optionsLe (groupFilterOptions g') (groupFilterOptions g)) :
    s.presetHits g ≤ s.presetHits g' := by
  unfold AggregatedStats.presetHits
  simp only [ite_false_eq_ite_true]
  apply List.sum_le_sum
  intro p hp
  exact ite_filter_mono s h (s.mySourceData.Agents.lookup p.1) p.2.Ticks

/-! ### Concrete snapshots used as test vectors -/

/-- The spec's §8 scenario: local subgroup 1; agent 1 ("A", subgroup 1)
healed 100 (10 ticks) via skill 10 and 50 (5 ticks) via skill 20, which the
classifier marks indirect; agent 2 ("B", subgroup 2) healed 30 (3 ticks)
via skill 10; agent 3 is unmapped and healed 5 (1 tick) via skill 10.
Options: excludeOffGroup and excludeUnmapped, everything else off. -/
def scenarioStats : AggregatedStats :=
  { mySourceData :=
      { Agents := [(1, ⟨"A", 1, false⟩), (2, ⟨"B", 2, false⟩)],
        SkillsHealing :=
          [(10, ⟨"S1", [(1, ⟨100, 10⟩), (2, ⟨30, 3⟩), (3, ⟨5, 1⟩)]⟩),
           (20, ⟨"S2", [(1, ⟨50, 5⟩)]⟩)],
        SubGroup := 1,
        EnteredCombatTime := 1000, ExitedCombatTime := 5000,
        LastHealEvent := 4000, LastDamageEvent := 4500 },
    myOptions := { ExcludeOffGroup := true, ExcludeUnmapped := true,
                   SortOrderChoice := SortOrder.AscendingSize },
    myDebugMode := false,
    IsSkillIndirectHealing := fun id _ => id == 20 }

/-- The same snapshot and options with the debug flag raised. -/
def scenarioDebugStats : AggregatedStats :=
  { scenarioStats with myDebugMode := true }

/-- A mapped, non-minion agent with subgroup 0 while the observer's
subgroup is also 0 (the "ungrouped encounter" of the spec). -/
def ungroupedStats : AggregatedStats :=
  { mySourceData :=
      { Agents := [(1, ⟨"X", 0, false⟩)],
        SkillsHealing := [(7, ⟨"S", [(1, ⟨40, 4⟩)]⟩)],
        SubGroup := 0,
        EnteredCombatTime := 0, ExitedCombatTime := 0,
        LastHealEvent := 0, LastDamageEvent := 0 },
    myOptions := { SortOrderChoice := SortOrder.AscendingSize },
    myDebugMode := false,
    IsSkillIndirectHealing := fun _ _ => false }

/-! ### Claim theorems -/

/-- C2 (code_bug evidence): at the §8 scenario, `getDetails(Skills, 10)`
returns the per-agent skill breakdown (here: the empty table, as no agent
has id 10) instead of the per-skill agent breakdown `getSkillDetails(10)`,
because the `Skills` case of the C++ switch lacks a `return` and falls
through to the `Agents` case. -/
theorem getDetails_skills_fallthrough :
    scenarioStats.GetDetails DataSource.Skills 10 = scenarioStats.GetAgentDetails 10 ∧
    scenarioStats.GetDetails DataSource.Skills 10 ≠ scenarioStats.GetSkillDetails 10 :=
  ⟨rfl, by decide⟩

/-- C4 (counterexample): a mapped, non-minion agent with subgroup 0 while
the local subgroup is 0 IS excluded when `excludeGroup` is set — rule 5
fires since `0 = 0` — contradicting the claim that no FilterConfig
excludes it. -/
theorem filter_ungrouped_counterexample :
    ungroupedStats.FilterInternal (ungroupedStats.mySourceData.Agents.lookup 1)
      ({ ExcludeGroup := true } : HealWindowOptions) = true := by decide

/-- C4 (amended): for a mapped, non-minion agent with subgroup 0 while the
snapshot's local subgroup is 0, the filter result equals the `excludeGroup`
flag: rules 1–4 never fire, rule 5 fires exactly when `excludeGroup` is
set, so the agent is not excluded precisely under configs with
`excludeGroup = false`. -/
theorem filter_ungrouped_amended (s : AggregatedStats) (aid : Nat) (a : HealedAgent)
    (hlook : s.mySourceData.Agents.lookup aid = some a)
    (hmin : a.IsMinion = false) (hsg : a.Subgroup = 0)
    (hlocal : s.mySourceData.SubGroup = 0) (f : HealWindowOptions) :
    s.FilterInternal (s.mySourceData.Agents.lookup aid) f = f.ExcludeGroup := by
  rw [hlook]
  cases hEG : f.ExcludeGroup <;>
    simp [AggregatedStats.FilterInternal, hmin, hsg, hlocal, hEG]

/-- Witness for C4's amended theorem at a concrete input. -/
theorem filter_ungrouped_amended_witness :
    ungroupedStats.mySourceData.Agents.lookup 1 = some ⟨"X", 0, false⟩ ∧
    (⟨"X", 0, false⟩ : HealedAgent).IsMinion = false ∧
    (⟨"X", 0, false⟩ : HealedAgent).Subgroup = 0 ∧
    ungroupedStats.mySourceData.SubGroup = 0 ∧
    ungroupedStats.FilterInternal (ungroupedStats.mySourceData.Agents.lookup 1)
      ({} : HealWindowOptions) = ({} : HealWindowOptions).ExcludeGroup :=
  ⟨rfl, rfl, rfl, rfl,
    filter_ungrouped_amended ungroupedStats 1 ⟨"X", 0, false⟩ rfl rfl rfl rfl {}⟩

/-- C5: the four entries of `getGroupFilterTotals()` appear in the fixed
order Group, Squad, All (Excluding Summons), All (Including Summons), and
their healing and hits are non-decreasing along that order. -/
theorem groupFilterTotals_ordering (s : AggregatedStats) :
    s.GetGroupFilterTotals.Entries.map AggregatedStatsEntry.Name
      = ["Group", "Squad", "All (Excluding Summons)", "All (Including Summons)"] ∧
    List.Chain' (fun a b => a.Healing ≤ b.Healing ∧ a.Hits ≤ b.Hits)
      s.GetGroupFilterTotals.Entries := by
  rw [gft_entries]
  constructor
  · simp [groupFilterList, GROUP_FILTER_STRING]
  · simp only [groupFilterList, List.map_cons, List.map_nil, List.chain'_cons,
      List.chain'_singleton, and_true]
    exact ⟨⟨presetHealing_mono s (by decide), presetHits_mono s (by decide)⟩,
           ⟨presetHealing_mono s (by decide), presetHits_mono s (by decide)⟩,
           ⟨presetHealing_mono s (by decide), presetHits_mono s (by decide)⟩⟩

/-- C6 (counterexample): in the spec's §8 scenario the group-filter totals
are NOT `[150, 180, 185, 185]` — the unmapped agent's 5 healing is excluded
from the two "All" presets as well, since every preset sets
`excludeUnmapped`. -/
theorem scenario_gft_counterexample :
    scenarioStats.GetGroupFilterTotals.Entries.map AggregatedStatsEntry.Healing
      ≠ [150, 180, 185, 185] := by decide

/-- C6 (amended): the §8 scenario yields healing 150 for Group, 180 for
Squad, and 180 (not 185) for both All presets: agent C is unmapped and
every preset sets `excludeUnmapped`, so its 5 healing is dropped from all
four entries. -/
theorem scenario_gft_amended :
    scenarioStats.GetGroupFilterTotals.Entries.map (fun e => (e.Name, e.Healing))
      = [("Group", 150), ("Squad", 180),
         ("All (Excluding Summons)", 180), ("All (Including Summons)", 180)] := by
  rfl

/-- C8: `getCombatTime` selects `end` as specified (`combatEnd` embeds the
selection), the snapshot invariant (nonzero `exitedCombat`/`lastHealEvent`
not earlier than `enteredCombat`) forces `enteredCombat ≤ end` in every
case, and the result is the exact quotient `(end - enteredCombat) / 1000`. -/
theorem getCombatTime_spec (s : AggregatedStats)
    (hx : s.mySourceData.ExitedCombatTime ≠ 0 →
      s.mySourceData.EnteredCombatTime ≤ s.mySourceData.ExitedCombatTime)
    (hh : s.mySourceData.LastHealEvent ≠ 0 →
      s.mySourceData.EnteredCombatTime ≤ s.mySourceData.LastHealEvent) :
    s.mySourceData.EnteredCombatTime ≤ s.combatEnd ∧
    s.GetCombatTime
      = ((s.combatEnd - s.mySourceData.EnteredCombatTime : Nat) : ℚ) / 1000 := by
  have hle : s.mySourceData.EnteredCombatTime ≤ s.combatEnd := by
    unfold AggregatedStats.combatEnd
    split_ifs with h1 h2
    · exact hx h1.2
    · exact hh h2.2
    · exact le_max_left _ _
  refine ⟨hle, ?_⟩
  unfold AggregatedStats.GetCombatTime
  rw [Nat.cast_sub hle]

/-- Witness for C8 at a concrete snapshot. -/
theorem getCombatTime_spec_witness :
    (scenarioStats.mySourceData.ExitedCombatTime ≠ 0 →
      scenarioStats.mySourceData.EnteredCombatTime ≤ scenarioStats.mySourceData.ExitedCombatTime) ∧
    (scenarioStats.mySourceData.LastHealEvent ≠ 0 →
      scenarioStats.mySourceData.EnteredCombatTime ≤ scenarioStats.mySourceData.LastHealEvent) ∧
    (scenarioStats.mySourceData.EnteredCombatTime ≤ scenarioStats.combatEnd ∧
      scenarioStats.GetCombatTime
        = ((scenarioStats.combatEnd - scenarioStats.mySourceData.EnteredCombatTime : Nat) : ℚ) / 1000) :=
  ⟨by decide, by decide, getCombatTime_spec scenarioStats (by decide) (by decide)⟩

/-- C9: a skill id absent from the snapshot's skill map (the synthetic
indirect id included) yields the empty table from `getSkillDetails`; in
the embedding every view operation is total, so no failure is ever
propagated. -/
theorem getSkillDetails_unknown_id (s : AggregatedStats) (pSkillId : Nat)
    (h : s.mySourceData.SkillsHealing.lookup pSkillId = none) :
    s.GetSkillDetails pSkillId = ⟨[], 0⟩ := by
  unfold AggregatedStats.GetSkillDetails
  rw [h]

/-- Witness for C9: the synthetic indirect-healing id is not in the §8
scenario's skill map and drills down to the empty table. -/
theorem getSkillDetails_unknown_id_witness :
    scenarioStats.mySourceData.SkillsHealing.lookup IndirectHealingSkillId = none ∧
    scenarioStats.GetSkillDetails IndirectHealingSkillId = ⟨[], 0⟩ :=
  ⟨rfl, getSkillDetails_unknown_id scenarioStats IndirectHealingSkillId rfl⟩

/-- C10: no view ever populates the optional `Casts` field: the total entry
and every entry of every table produced by the public operations carry
`Casts = none`. -/
theorem views_never_populate_casts (s : AggregatedStats) :
    s.GetTotal.Casts = none ∧
    noCasts s.GetAgents = true ∧
    noCasts s.GetSkills = true ∧
    noCasts s.GetGroupFilterTotals = true ∧
    (∀ pAgentId : Nat, noCasts (s.GetAgentDetails pAgentId) = true) ∧
    (∀ pSkillId : Nat, noCasts (s.GetSkillDetails pSkillId) = true) :=
  ⟨rfl, noCasts_getAgents s, noCasts_getSkills s, noCasts_getGroupFilterTotals s,
    noCasts_getAgentDetails s, noCasts_getSkillDetails s⟩

theorem skillContribution_of_not_debug (s : AggregatedStats) (hdbg : s.myDebugMode = false)
    (p : Nat × HealingSkill) : s.skillContribution p = s.skillTotals p.2 := by
  simp [AggregatedStats.skillContribution, hdbg]

theorem skillContribution_of_not_indirect (s : AggregatedStats) (p : Nat × HealingSkill)
    (hind : s.IsSkillIndirectHealing p.1 p.2.Name = false) :
    s.skillContribution p = s.skillTotals p.2 := by
  simp [AggregatedStats.skillContribution, hind]

theorem agentDetailContribution_of_not_indirect (s : AggregatedStats) (pAgentId : Nat)
    (p : Nat × HealingSkill) (q : Nat × AgentStats)
    (hind : s.IsSkillIndirectHealing p.1 p.2.Name = false) :
    s.agentDetailContribution pAgentId p q
      = if q.1 ≠ pAgentId then (0, 0) else (q.2.TotalHealing, q.2.Ticks) := by
  simp [AggregatedStats.agentDetailContribution, hind]

/-- C1 (counterexample): with the debug flag raised on the §8 scenario the
skills view emits the indirect skill twice — once as itself, once folded
into the synthetic bucket — so its healing sum (200) exceeds the agents
view's (150): conservation fails for that engine configuration. -/
theorem conservation_debug_counterexample :
    sumHealing scenarioDebugStats.GetSkills ≠ sumHealing scenarioDebugStats.GetAgents := by
  decide

/-- C1 (amended): provided the debug flag is off, the healing (and hits)
sums of `getSkills()` and `getAgents()` agree and both equal
`getTotal()`'s fields; `getTotal` equals the skills sum unconditionally. -/
theorem conservation_across_groupings (s : AggregatedStats) (hdbg : s.myDebugMode = false) :
    sumHealing s.GetSkills = sumHealing s.GetAgents ∧
    s.GetTotal.Healing = sumHealing s.GetSkills ∧
    sumHits s.GetSkills = sumHits s.GetAgents ∧
    s.GetTotal.Hits = sumHits s.GetSkills := by
  refine ⟨?_, getTotal_healing s, ?_, getTotal_hits s⟩
  · rw [getSkills_sumHealing, getAgents_sumHealing_skills]
    simp only [skillContribution_of_not_debug s hdbg]
  · rw [getSkills_sumHits, getAgents_sumHits_skills]
    simp only [skillContribution_of_not_debug s hdbg]

/-- Witness for C1's amended theorem at the §8 scenario. -/
theorem conservation_across_groupings_witness :
    scenarioStats.myDebugMode = false ∧
    (sumHealing scenarioStats.GetSkills = sumHealing scenarioStats.GetAgents ∧
     scenarioStats.GetTotal.Healing = sumHealing scenarioStats.GetSkills ∧
     sumHits scenarioStats.GetSkills = sumHits scenarioStats.GetAgents ∧
     scenarioStats.GetTotal.Hits = sumHits scenarioStats.GetSkills) :=
  ⟨rfl, conservation_across_groupings scenarioStats rfl⟩

/-- C3 (counterexample): two engines over the same snapshot and options,
differing only in the debug flag, return different `getTotal().healing`
(200 vs 150) because debug mode duplicates the indirect skill in the skills
view that `getTotal` sums. -/
theorem debug_total_counterexample :
    scenarioDebugStats.GetTotal.Healing ≠ scenarioStats.GetTotal.Healing := by
  decide

/-- C3 (amended): when no snapshot skill is classified as indirect healing,
flipping the debug flag changes no numeric totals: `getAgents`,
`getSkills`, `getTotal`, `getSkillDetails`, `getAgentDetails` sums and the
whole `getGroupFilterTotals` table agree between the two runs (with
indirect skills present, debug mode inflates the skills view and
`getTotal` by the indirect amounts, as the counterexample shows). -/
theorem debug_mode_noninterference (src : HealingStats) (opts : HealWindowOptions)
    (ind : Nat → String → Bool) (d d' : Bool)
    (hnoind : ∀ p ∈ src.SkillsHealing, ind p.1 p.2.Name = false) :
    sumHealing (AggregatedStats.mk src opts d ind).GetAgents
      = sumHealing (AggregatedStats.mk src opts d' ind).GetAgents ∧
    sumHits (AggregatedStats.mk src opts d ind).GetAgents
      = sumHits (AggregatedStats.mk src opts d' ind).GetAgents ∧
    sumHealing (AggregatedStats.mk src opts d ind).GetSkills
      = sumHealing (AggregatedStats.mk src opts d' ind).GetSkills ∧
    sumHits (AggregatedStats.mk src opts d ind).GetSkills
      = sumHits (AggregatedStats.mk src opts d' ind).GetSkills ∧
    (AggregatedStats.mk src opts d ind).GetTotal.Healing
      = (AggregatedStats.mk src opts d' ind).GetTotal.Healing ∧
    (AggregatedStats.mk src opts d ind).GetTotal.Hits
      = (AggregatedStats.mk src opts d' ind).GetTotal.Hits ∧
    (AggregatedStats.mk src opts d ind).GetGroupFilterTotals
      = (AggregatedStats.mk src opts d' ind).GetGroupFilterTotals ∧
    (∀ i : Nat, sumHealing ((AggregatedStats.mk src opts d ind).GetSkillDetails i)
      = sumHealing ((AggregatedStats.mk src opts d' ind).GetSkillDetails i)) ∧
    (∀ i : Nat, sumHits ((AggregatedStats.mk src opts d ind).GetSkillDetails i)
      = sumHits ((AggregatedStats.mk src opts d' ind).GetSkillDetails i)) ∧
    (∀ i : Nat, sumHealing ((AggregatedStats.mk src opts d ind).GetAgentDetails i)
      = sumHealing ((AggregatedStats.mk src opts d' ind).GetAgentDetails i)) ∧
    (∀ i : Nat, sumHits ((AggregatedStats.mk src opts d ind).GetAgentDetails i)
      = sumHits ((AggregatedStats.mk src opts d' ind).GetAgentDetails i)) := by
  have hskH : sumHealing (AggregatedStats.mk src opts d ind).GetSkills
      = sumHealing (AggregatedStats.mk src opts d' ind).GetSkills := by
    rw [getSkills_sumHealing, getSkills_sumHealing]
    refine congrArg List.sum (List.map_congr_left ?_)
    intro p hp
    rw [skillContribution_of_not_indirect (AggregatedStats.mk src opts d ind) p (hnoind p hp),
        skillContribution_of_not_indirect (AggregatedStats.mk src opts d' ind) p (hnoind p hp)]
    exact rfl
  have hskT : sumHits (AggregatedStats.mk src opts d ind).GetSkills
      = sumHits (AggregatedStats.mk src opts d' ind).GetSkills := by
    rw [getSkills_sumHits, getSkills_sumHits]
    refine congrArg List.sum (List.map_congr_left ?_)
    intro p hp
    rw [skillContribution_of_not_indirect (AggregatedStats.mk src opts d ind) p (hnoind p hp),
        skillContribution_of_not_indirect (AggregatedStats.mk src opts d' ind) p (hnoind p hp)]
    exact rfl
  refine ⟨?_, ?_, hskH, hskT, ?_, ?_, rfl, ?_, ?_, ?_, ?_⟩
  · rw [getAgents_sumHealing, getAgents_sumHealing]; exact rfl
  · rw [getAgents_sumHits, getAgents_sumHits]; exact rfl
  · rw [getTotal_healing, getTotal_healing]; exact hskH
  · rw [getTotal_hits, getTotal_hits]; exact hskT
  · intro i
    rw [getSkillDetails_sumHealing, getSkillDetails_sumHealing]; exact rfl
  · intro i
    rw [getSkillDetails_sumHits, getSkillDetails_sumHits]; exact rfl
  · intro i
    rw [getAgentDetails_sumHealing, getAgentDetails_sumHealing]
    refine congrArg List.sum (List.map_congr_left ?_)
    intro p hp
    refine congrArg List.sum (List.map_congr_left ?_)
    intro q hq
    rw [agentDetailContribution_of_not_indirect (AggregatedStats.mk src opts d ind) i p q (hnoind p hp),
        agentDetailContribution_of_not_indirect (AggregatedStats.mk src opts d' ind) i p q (hnoind p hp)]
  · intro i
    rw [getAgentDetails_sumHits, getAgentDetails_sumHits]
    refine congrArg List.sum (List.map_congr_left ?_)
    intro p hp
    refine congrArg List.sum (List.map_congr_left ?_)
    intro q hq
    rw [agentDetailContribution_of_not_indirect (AggregatedStats.mk src opts d ind) i p q (hnoind p hp),
        agentDetailContribution_of_not_indirect (AggregatedStats.mk src opts d' ind) i p q (hnoind p hp)]

/-- Witness for C3's amended theorem: a snapshot whose classifier marks no
skill indirect. -/
theorem debug_mode_noninterference_witness :
    (∀ p ∈ ungroupedStats.mySourceData.SkillsHealing,
      ungroupedStats.IsSkillIndirectHealing p.1 p.2.Name = false) ∧
    sumHealing (AggregatedStats.mk ungroupedStats.mySourceData ungroupedStats.myOptions
        false ungroupedStats.IsSkillIndirectHealing).GetAgents
      = sumHealing (AggregatedStats.mk ungroupedStats.mySourceData ungroupedStats.myOptions
        true ungroupedStats.IsSkillIndirectHealing).GetAgents ∧
    (AggregatedStats.mk ungroupedStats.mySourceData ungroupedStats.myOptions
        false ungroupedStats.IsSkillIndirectHealing).GetTotal.Healing
      = (AggregatedStats.mk ungroupedStats.mySourceData ungroupedStats.myOptions
        true ungroupedStats.IsSkillIndirectHealing).GetTotal.Healing := by
  have h := debug_mode_noninterference ungroupedStats.mySourceData ungroupedStats.myOptions
    ungroupedStats.IsSkillIndirectHealing false true (by decide)
  exact ⟨by decide, h.1, h.2.2.2.2.1⟩

/-! ### Monotonicity in the exclusion flags -/

theorem skillTotals_fst_mono (src : HealingStats) (dbg : Bool) (ind : Nat → String → Bool)
    {c c' : HealWindowOptions} (hle : optionsLe c c') (sk : HealingSkill) :
    ((AggregatedStats.mk src c' dbg ind).skillTotals sk).1
      ≤ ((AggregatedStats.mk src c dbg ind).skillTotals sk).1 := by
  rw [skillTotals_fst, skillTotals_fst]
  apply List.sum_le_sum
  intro q hq
  exact ite_filter_mono (AggregatedStats.mk src c dbg ind) hle
    (src.Agents.lookup q.1) q.2.TotalHealing

theorem skillTotals_snd_mono (src : HealingStats) (dbg : Bool) (ind : Nat → String → Bool)
    {c c' : HealWindowOptions} (hle : optionsLe c c') (sk : HealingSkill) :
    ((AggregatedStats.mk src c' dbg ind).skillTotals sk).2
      ≤ ((AggregatedStats.mk src c dbg ind).skillTotals sk).2 := by
  rw [skillTotals_snd, skillTotals_snd]
  apply List.sum_le_sum
  intro q hq
  exact ite_filter_mono (AggregatedStats.mk src c dbg ind) hle
    (src.Agents.lookup q.1) q.2.Ticks

theorem skillContribution_fst_mono (src : HealingStats) (dbg : Bool) (ind : Nat → String → Bool)
    {c c' : HealWindowOptions} (hle : optionsLe c c') (p : Nat × HealingSkill) :
    ((AggregatedStats.mk src c' dbg ind).skillContribution p).1
      ≤ ((AggregatedStats.mk src c dbg ind).skillContribution p).1 := by
  unfold AggregatedStats.skillContribution
  dsimp only
  have hm := skillTotals_fst_mono src dbg ind hle p.2
  split_ifs <;> omega

theorem skillContribution_snd_mono (src : HealingStats) (dbg : Bool) (ind : Nat → String → Bool)
    {c c' : HealWindowOptions} (hle : optionsLe c c') (p : Nat × HealingSkill) :
    ((AggregatedStats.mk src c' dbg ind).skillContribution p).2
      ≤ ((AggregatedStats.mk src c dbg ind).skillContribution p).2 := by
  unfold AggregatedStats.skillContribution
  dsimp only
  have hm := skillTotals_snd_mono src dbg ind hle p.2
  split_ifs <;> omega

/-- C7: enabling additional exclusion flags (in particular flipping any one
`excludeX` flag from false to true, holding the others fixed — the
`optionsLe` hypothesis covers exactly the pointwise enabling of flags)
never moves an agent from excluded to included, and never increases the
healing or hits sum of any view: the agents, skills, total and per-skill
detail sums do not increase, while the per-agent detail sums and the
group-filter totals (which ignore the engine's own flags) are unchanged. -/
theorem filter_monotonicity (src : HealingStats) (dbg : Bool) (ind : Nat → String → Bool)
    (c c' : HealWindowOptions) (hle : optionsLe c c') :
    (∀ a : Option HealedAgent,
      (AggregatedStats.mk src c dbg ind).FilterInternal a c = true →
      (AggregatedStats.mk src c' dbg ind).FilterInternal a c' = true) ∧
    sumHealing (AggregatedStats.mk src c' dbg ind).GetAgents
      ≤ sumHealing (AggregatedStats.mk src c dbg ind).GetAgents ∧
    sumHits (AggregatedStats.mk src c' dbg ind).GetAgents
      ≤ sumHits (AggregatedStats.mk src c dbg ind).GetAgents ∧
    sumHealing (AggregatedStats.mk src c' dbg ind).GetSkills
      ≤ sumHealing (AggregatedStats.mk src c dbg ind).GetSkills ∧
    sumHits (AggregatedStats.mk src c' dbg ind).GetSkills
      ≤ sumHits (AggregatedStats.mk src c dbg ind).GetSkills ∧
    (AggregatedStats.mk src c' dbg ind).GetTotal.Healing
      ≤ (AggregatedStats.mk src c dbg ind).GetTotal.Healing ∧
    (AggregatedStats.mk src c' dbg ind).GetTotal.Hits
      ≤ (AggregatedStats.mk src c dbg ind).GetTotal.Hits ∧
    (∀ i : Nat, sumHealing ((AggregatedStats.mk src c' dbg ind).GetSkillDetails i)
      ≤ sumHealing ((AggregatedStats.mk src c dbg ind).GetSkillDetails i)) ∧
    (∀ i : Nat, sumHits ((AggregatedStats.mk src c' dbg ind).GetSkillDetails i)
      ≤ sumHits ((AggregatedStats.mk src c dbg ind).GetSkillDetails i)) ∧
    (∀ i : Nat, sumHealing ((AggregatedStats.mk src c' dbg ind).GetAgentDetails i)
      = sumHealing ((AggregatedStats.mk src c dbg ind).GetAgentDetails i)) ∧
    (∀ i : Nat, sumHits ((AggregatedStats.mk src c' dbg ind).GetAgentDetails i)
      = sumHits ((AggregatedStats.mk src c dbg ind).GetAgentDetails i)) ∧
    (AggregatedStats.mk src c' dbg ind).GetGroupFilterTotals
      = (AggregatedStats.mk src c dbg ind).GetGroupFilterTotals := by
  have hskH : sumHealing (AggregatedStats.mk src c' dbg ind).GetSkills
      ≤ sumHealing (AggregatedStats.mk src c dbg ind).GetSkills := by
    rw [getSkills_sumHealing, getSkills_sumHealing]
    apply List.sum_le_sum
    intro p hp
    exact skillContribution_fst_mono src dbg ind hle p
  have hskT : sumHits (AggregatedStats.mk src c' dbg ind).GetSkills
      ≤ sumHits (AggregatedStats.mk src c dbg ind).GetSkills := by
    rw [getSkills_sumHits, getSkills_sumHits]
    apply List.sum_le_sum
    intro p hp
    exact skillContribution_snd_mono src dbg ind hle p
  refine ⟨?_, ?_, ?_, hskH, hskT, ?_, ?_, ?_, ?_, fun i => ?_, fun i => ?_, rfl⟩
  · intro a ha
    exact FilterInternal_mono (AggregatedStats.mk src c dbg ind) hle a ha
  · rw [getAgents_sumHealing, getAgents_sumHealing]
    have hAA : (AggregatedStats.mk src c' dbg ind).GetAllAgents
        = (AggregatedStats.mk src c dbg ind).GetAllAgents := rfl
    rw [hAA]
    apply List.sum_le_sum
    intro p hp
    exact ite_filter_mono (AggregatedStats.mk src c dbg ind) hle
      (src.Agents.lookup p.1) p.2.TotalHealing
  · rw [getAgents_sumHits, getAgents_sumHits]
    have hAA : (AggregatedStats.mk src c' dbg ind).GetAllAgents
        = (AggregatedStats.mk src c dbg ind).GetAllAgents := rfl
    rw [hAA]
    apply List.sum_le_sum
    intro p hp
    exact ite_filter_mono (AggregatedStats.mk src c dbg ind) hle
      (src.Agents.lookup p.1) p.2.Ticks
  · rw [getTotal_healing, getTotal_healing]; exact hskH
  · rw [getTotal_hits, getTotal_hits]; exact hskT
  · intro i
    rw [getSkillDetails_sumHealing, getSkillDetails_sumHealing]
    show (match src.SkillsHealing.lookup i with
      | none => 0
      | some sk => (sk.AgentsHealing.map (fun q : Nat × AgentStats =>
          if (AggregatedStats.mk src c' dbg ind).Filter q.1 = true
          then 0 else q.2.TotalHealing)).sum) ≤
      (match src.SkillsHealing.lookup i with
      | none => 0
      | some sk => (sk.AgentsHealing.map (fun q : Nat × AgentStats =>
          if (AggregatedStats.mk src c dbg ind).Filter q.1 = true
          then 0 else q.2.TotalHealing)).sum)
    cases src.SkillsHealing.lookup i with
    | none => exact le_refl 0
    | some sk =>
      apply List.sum_le_sum
      intro q hq
      exact ite_filter_mono (AggregatedStats.mk src c dbg ind) hle
        (src.Agents.lookup q.1) q.2.TotalHealing
  · intro i
    rw [getSkillDetails_sumHits, getSkillDetails_sumHits]
    show (match src.SkillsHealing.lookup i with
      | none => 0
      | some sk => (sk.AgentsHealing.map (fun q : Nat × AgentStats =>
          if (AggregatedStats.mk src c' dbg ind).Filter q.1 = true
          then 0 else q.2.Ticks)).sum) ≤
      (match src.SkillsHealing.lookup i with
      | none => 0
      | some sk => (sk.AgentsHealing.map (fun q : Nat × AgentStats =>
          if (AggregatedStats.mk src c dbg ind).Filter q.1 = true
          then 0 else q.2.Ticks)).sum)
    cases src.SkillsHealing.lookup i with
    | none => exact le_refl 0
    | some sk =>
      apply List.sum_le_sum
      intro q hq
      exact ite_filter_mono (AggregatedStats.mk src c dbg ind) hle
        (src.Agents.lookup q.1) q.2.Ticks
  · rw [getAgentDetails_sumHealing, getAgentDetails_sumHealing]; exact rfl
  · rw [getAgentDetails_sumHits, getAgentDetails_sumHits]; exact rfl

/-- The option records witnessing monotonicity: the scenario's own options,
and the same options with `excludeGroup` additionally enabled. -/
def monoMoreOptions : HealWindowOptions :=
  { scenarioStats.myOptions with ExcludeGroup := true }

/-- Witness for C7 at the §8 scenario, enabling the single flag
`excludeGroup`. -/
theorem filter_monotonicity_witness :
    optionsLe scenarioStats.myOptions monoMoreOptions ∧
    ((∀ a : Option HealedAgent,
      (AggregatedStats.mk scenarioStats.mySourceData scenarioStats.myOptions false
        scenarioStats.IsSkillIndirectHealing).FilterInternal a scenarioStats.myOptions = true →
      (AggregatedStats.mk scenarioStats.mySourceData monoMoreOptions false
        scenarioStats.IsSkillIndirectHealing).FilterInternal a monoMoreOptions = true) ∧
    sumHealing (AggregatedStats.mk scenarioStats.mySourceData monoMoreOptions false
        scenarioStats.IsSkillIndirectHealing).GetAgents
      ≤ sumHealing (AggregatedStats.mk scenarioStats.mySourceData scenarioStats.myOptions false
        scenarioStats.IsSkillIndirectHealing).GetAgents ∧
    sumHits (AggregatedStats.mk scenarioStats.mySourceData monoMoreOptions false
        scenarioStats.IsSkillIndirectHealing).GetAgents
      ≤ sumHits (AggregatedStats.mk scenarioStats.mySourceData scenarioStats.myOptions false
        scenarioStats.IsSkillIndirectHealing).GetAgents ∧
    sumHealing (AggregatedStats.mk scenarioStats.mySourceData monoMoreOptions false
        scenarioStats.IsSkillIndirectHealing).GetSkills
      ≤ sumHealing (AggregatedStats.mk scenarioStats.mySourceData scenarioStats.myOptions false
        scenarioStats.IsSkillIndirectHealing).GetSkills ∧
    sumHits (AggregatedStats.mk scenarioStats.mySourceData monoMoreOptions false
        scenarioStats.IsSkillIndirectHealing).GetSkills
      ≤ sumHits (AggregatedStats.mk scenarioStats.mySourceData scenarioStats.myOptions false
        scenarioStats.IsSkillIndirectHealing).GetSkills ∧
    (AggregatedStats.mk scenarioStats.mySourceData monoMoreOptions false
        scenarioStats.IsSkillIndirectHealing).GetTotal.Healing
      ≤ (AggregatedStats.mk scenarioStats.mySourceData scenarioStats.myOptions false
        scenarioStats.IsSkillIndirectHealing).GetTotal.Healing ∧
    (AggregatedStats.mk scenarioStats.mySourceData monoMoreOptions false
        scenarioStats.IsSkillIndirectHealing).GetTotal.Hits
      ≤ (AggregatedStats.mk scenarioStats.mySourceData scenarioStats.myOptions false
        scenarioStats.IsSkillIndirectHealing).GetTotal.Hits ∧
    (∀ i : Nat, sumHealing ((AggregatedStats.mk scenarioStats.mySourceData monoMoreOptions false
        scenarioStats.IsSkillIndirectHealing).GetSkillDetails i)
      ≤ sumHealing ((AggregatedStats.mk scenarioStats.mySourceData scenarioStats.myOptions false
        scenarioStats.IsSkillIndirectHealing).GetSkillDetails i)) ∧
    (∀ i : Nat, sumHits ((AggregatedStats.mk scenarioStats.mySourceData monoMoreOptions false
        scenarioStats.IsSkillIndirectHealing).GetSkillDetails i)
      ≤ sumHits ((AggregatedStats.mk scenarioStats.mySourceData scenarioStats.myOptions false
        scenarioStats.IsSkillIndirectHealing).GetSkillDetails i)) ∧
    (∀ i : Nat, sumHealing ((AggregatedStats.mk scenarioStats.mySourceData monoMoreOptions false
        scenarioStats.IsSkillIndirectHealing).GetAgentDetails i)
      = sumHealing ((AggregatedStats.mk scenarioStats.mySourceData scenarioStats.myOptions false
        scenarioStats.IsSkillIndirectHealing).GetAgentDetails i)) ∧
    (∀ i : Nat, sumHits ((AggregatedStats.mk scenarioStats.mySourceData monoMoreOptions false
        scenarioStats.IsSkillIndirectHealing).GetAgentDetails i)
      = sumHits ((AggregatedStats.mk scenarioStats.mySourceData scenarioStats.myOptions false
        scenarioStats.IsSkillIndirectHealing).GetAgentDetails i)) ∧
    (AggregatedStats.mk scenarioStats.mySourceData monoMoreOptions false
        scenarioStats.IsSkillIndirectHealing).GetGroupFilterTotals
      = (AggregatedStats.mk scenarioStats.mySourceData scenarioStats.myOptions false
        scenarioStats.IsSkillIndirectHealing).GetGroupFilterTotals) :=
  ⟨by decide,
   filter_monotonicity scenarioStats.mySourceData false scenarioStats.IsSkillIndirectHealing
     scenarioStats.myOptions monoMoreOptions (by decide)⟩
